import Mathlib

/-!
Verification of the MCP Hub worker core (registry-and-gateway layer).

This file gives a shallow embedding, in Lean 4, of the request-time logic of
the worker: the cache layer (worker/src/cache.ts), the rate limiter
(worker/src/auth.ts), the registry store (worker/src/registry.ts), the
health monitor (worker/src/health.ts), the schema federator
(worker/src/schema-federation.ts), and the proxy gateway
(worker/src/proxy.ts), together with the parts of the router
(worker/src/router.ts) that the properties below mention.

External effects (KV reads and writes, outbound fetch calls, the clock) are
passed in as explicit oracle arguments, so every definition is a total,
executable Lean function whose branch structure mirrors the TypeScript
source line by line.
-/

set_option autoImplicit false

namespace MCPHub

/-! ## String helpers

`strIncludes s pat` models JavaScript `s.includes(pat)` (substring test).
-/

/-- Does `pat` occur as a prefix of `l`? (char-list version of `startsWith`). -/
def hasPrefixL : List Char → List Char → Bool
  | [], _ => true
  | _ :: _, [] => false
  | p :: ps, c :: cs => p == c && hasPrefixL ps cs

/-- Does `pat` occur as a contiguous substring of `l`? -/
def hasSubstrL (pat : List Char) : List Char → Bool
  | [] => hasPrefixL pat []
  | c :: cs => hasPrefixL pat (c :: cs) || hasSubstrL pat cs

/-- JavaScript `s.includes(pat)`. -/
def strIncludes (s pat : String) : Bool :=
  hasSubstrL pat.toList s.toList

/-- JavaScript `s.toUpperCase()` (ASCII, which covers every string the
worker compares after upcasing). -/
def strUpper (s : String) : String :=
  ⟨s.toList.map Char.toUpper⟩

/-- JavaScript `s.toLowerCase()` (ASCII). -/
def strLower (s : String) : String :=
  ⟨s.toList.map Char.toLower⟩

/-! ## Data model (worker/src/types.ts)

Machine-irrelevant metadata fields of `MCPServer` (author, version,
timestamps, rate-limit hints) are elided: no operation verified here reads
them.  The registered `url` is kept in parsed form (`URLRec`), since the
proxy gateway only ever consumes it through `new URL(...)`.
-/

/-- `MCPServer.healthStatus`: "online" | "offline" | "degraded" | "unknown". -/
inductive HealthStatus where
  | online
  | offline
  | degraded
  | unknown
deriving DecidableEq, Repr

/-- `HealthCheckResult.status`: "online" | "offline" | "degraded".
The TS type for probe results excludes "unknown". -/
inductive CheckStatus where
  | online
  | offline
  | degraded
deriving DecidableEq, Repr

/-- A parsed absolute URL, as produced by a successful `new URL(...)`.
`port = none` models the default port for the scheme. -/
structure URLRec where
  scheme : String
  host : String
  port : Option Nat
  path : String
deriving DecidableEq, Repr

/-- The origin (scheme + host + port) of a URL, the triple compared by
`targetUrl.origin !== new URL(server.url).origin` in proxy.ts. -/
def URLRec.origin (u : URLRec) : String × String × Option Nat :=
  (u.scheme, u.host, u.port)

/-- The first argument of `new URL(targetPath, base)`: either a relative
reference (resolved against the base, keeping the base's origin) or an
absolute URL (which replaces the base entirely). -/
inductive TargetPath where
  | rel (p : String)
  | abs (u : URLRec)
deriving DecidableEq, Repr

/-- WHATWG resolution `new URL(targetPath, base)` at the granularity this
development needs: a relative reference keeps the base's origin, an
absolute reference stands alone. -/
def resolveURL : TargetPath → URLRec → URLRec
  | .rel p, base => { base with path := p }
  | .abs u, _ => u

/-- The fields of `MCPServer` consumed by the verified operations. -/
structure MCPServer where
  id : String
  name : String
  description : String
  url : URLRec
  tags : List String
  verified : Bool
  healthStatus : HealthStatus
deriving DecidableEq, Repr

/-- `Registry` (a registry snapshot): version + servers + aggregate stats. -/
structure RegistryStats where
  totalServers : Nat
  onlineServers : Nat
  totalRequests : Nat
deriving DecidableEq, Repr

structure Registry where
  version : String
  lastUpdated : String
  servers : List MCPServer
  stats : RegistryStats
deriving DecidableEq, Repr

/-! ## Cache layer (worker/src/cache.ts)

The KV namespace is modelled as an association list from keys to stored
entries.  A stored entry carries the wrapped `CacheEntry` payload
(`{data, timestamp, ttl}`) plus the absolute time at which the KV store's
own expiry (`expirationTtl`) fires.  Times are milliseconds since epoch
(`Nat`), TTLs are seconds, exactly as in the source.
-/

/-- `CacheEntry<T>`: the wrapper written by `setCachedData`. -/
structure CacheEntry (δ : Type) where
  data : δ
  timestamp : Nat
  ttl : Nat
deriving DecidableEq, Repr

/-- One record of the backing KV store: the wrapped payload plus the
absolute ms time at which the store's own `expirationTtl` fires. -/
structure KVRecord (δ : Type) where
  entry : CacheEntry δ
  kvExpireAt : Nat
deriving DecidableEq, Repr

/-- The backing KV store for one value type. -/
abbrev KVStore (δ : Type) := List (String × KVRecord δ)

/-- Raw KV read: the record is visible while the store's own expiry has
not yet fired. -/
def kvGet {δ : Type} (kv : KVStore δ) (now : Nat) (key : String) :
    Option (KVRecord δ) :=
  match kv.find? (fun p => p.1 = key) with
  | none => none
  | some p => if now < p.2.kvExpireAt then some p.2 else none

/-- Raw KV write (replaces any existing record for the key). -/
def kvPut {δ : Type} (kv : KVStore δ) (key : String) (r : KVRecord δ) :
    KVStore δ :=
  (key, r) :: kv.filter (fun p => ¬ p.1 = key)

/-- Raw KV delete. -/
def kvDelete {δ : Type} (kv : KVStore δ) (key : String) : KVStore δ :=
  kv.filter (fun p => ¬ p.1 = key)

/-- `getCachedData` (cache.ts 12-37): read the wrapper, apply the logical
expiry test `now > cached.timestamp + cached.ttl * 1000`, proactively
deleting an expired key.  Returns the value (if any) and the store
afterwards. -/
def getCachedData {δ : Type} (kv : KVStore δ) (now : Nat) (key : String) :
    Option δ × KVStore δ :=
  match kvGet kv now key with
  | none => (none, kv)
  | some r =>
    if now > r.entry.timestamp + r.entry.ttl * 1000 then
      (none, kvDelete kv key)
    else
      (some r.entry.data, kv)

/-- `setCachedData` (cache.ts 42-70): wrap the value with
`{data, timestamp := now, ttl}` and write it with the store's own expiry
set to `ttl + 60` seconds (the buffer added to the KV TTL). -/
def setCachedData {δ : Type} (kv : KVStore δ) (now : Nat) (key : String)
    (data : δ) (ttl : Nat) : KVStore δ :=
  kvPut kv key
    { entry := { data := data, timestamp := now, ttl := ttl }
      kvExpireAt := now + (ttl + 60) * 1000 }

/-! ## Rate limiter (worker/src/auth.ts, `checkRateLimit`)

The per-client state is the stored list of request timestamps (ms).
`readRes` is the outcome of the KV read (`.error` = the read threw) and
`writeOk` says whether the KV write, if attempted, succeeds.  Timestamps
are `Int` so that `now - RATE_LIMIT_WINDOW` behaves as in JavaScript even
for small `now`.
-/

def RATE_LIMIT_WINDOW : Int := 60 * 1000

def RATE_LIMIT_MAX_REQUESTS : Nat := 100

/-- The result record returned by `checkRateLimit`. -/
structure RateLimitResult where
  allowed : Bool
  limit : Nat
  remaining : Int
  reset : Int
deriving DecidableEq, Repr

/-- The full outcome of one `checkRateLimit` call: the returned result,
the value written to the store (`none` = no write executed), and whether
a store operation raised (the `catch` branch at auth.ts 85-95 fired, or
the write failed after being attempted). -/
structure RLOutcome where
  result : RateLimitResult
  written : Option (List Int)
  storeErrored : Bool
deriving DecidableEq, Repr

/-- `checkRateLimit` (auth.ts 20-96).  Branches, in source order:
no client IP → allow with minimal accounting; KV read threw → fail open;
otherwise filter the stored timestamps to the trailing window, reject at
the cap with reset = first retained timestamp + window, else append `now`
and persist (a failing write also fails open). -/
def checkRateLimit (now : Int) (ipKnown : Bool)
    (readRes : Except String (Option (List Int))) (writeOk : Bool) :
    RLOutcome :=
  if ipKnown = false then
    { result := { allowed := true, limit := RATE_LIMIT_MAX_REQUESTS
                  remaining := (RATE_LIMIT_MAX_REQUESTS : Int) - 1
                  reset := now + RATE_LIMIT_WINDOW }
      written := none, storeErrored := false }
  else
    let windowStart := now - RATE_LIMIT_WINDOW
    match readRes with
    | .error _ =>
      { result := { allowed := true, limit := RATE_LIMIT_MAX_REQUESTS
                    remaining := (RATE_LIMIT_MAX_REQUESTS : Int) - 1
                    reset := now + RATE_LIMIT_WINDOW }
        written := none, storeErrored := true }
    | .ok stored =>
      let requests := (stored.getD []).filter (fun t => windowStart < t)
      if RATE_LIMIT_MAX_REQUESTS ≤ requests.length then
        { result := { allowed := false, limit := RATE_LIMIT_MAX_REQUESTS
                      remaining := 0
                      reset := requests.headD 0 + RATE_LIMIT_WINDOW }
          written := none, storeErrored := false }
      else
        let requests2 := requests ++ [now]
        if writeOk then
          { result := { allowed := true, limit := RATE_LIMIT_MAX_REQUESTS
                        remaining := (RATE_LIMIT_MAX_REQUESTS : Int) -
                          requests2.length
                        reset := now + RATE_LIMIT_WINDOW }
            written := some requests2, storeErrored := false }
        else
          { result := { allowed := true, limit := RATE_LIMIT_MAX_REQUESTS
                        remaining := (RATE_LIMIT_MAX_REQUESTS : Int) - 1
                        reset := now + RATE_LIMIT_WINDOW }
            written := none, storeErrored := true }

/-- Iterate `checkRateLimit` over a list of call times against a
consistent backing store (every read sees the last successful write,
every write succeeds, the client IP is known). -/
def runCalls (times : List Int) (st : Option (List Int)) :
    List RateLimitResult × Option (List Int) :=
  match times with
  | [] => ([], st)
  | t :: rest =>
    let o := checkRateLimit t true (.ok st) true
    let st2 := match o.written with
      | some l => some l
      | none => st
    let r := runCalls rest st2
    (o.result :: r.1, r.2)

/-! ## Registry store (worker/src/registry.ts)

`getRegistry` consults the cache, then fetches from GitHub, validates the
top-level shape, and falls back to a built-in single-record snapshot on
any failure.  The cache read result and the fetch outcome are oracle
arguments; `getCachedData` itself never throws (it catches internally and
returns null), so the cache read is an `Option`.
-/

/-- The raw JSON document a registry fetch can yield.  `version = none`
models an absent or falsy `version`; `servers = none` models `servers`
absent or not an array. -/
structure RawRegistry where
  version : Option String
  lastUpdated : String
  servers : Option (List MCPServer)
  stats : RegistryStats
deriving DecidableEq, Repr

/-- Outcome of the `fetch(GITHUB_REGISTRY_URL)` call. -/
inductive RegistryFetch where
  | netError (msg : String)
  | response (ok : Bool) (status : Nat) (doc : RawRegistry)
deriving DecidableEq, Repr

/-- `fetchRegistryFromGitHub` (registry.ts 212-227): throws on a network
error, on a non-ok response, and on an invalid top-level shape
(`!registry.version || !registry.servers || !Array.isArray(...)`). -/
def fetchRegistryFromGitHub (f : RegistryFetch) : Except String Registry :=
  match f with
  | .netError msg => .error msg
  | .response ok status doc =>
    if ok = false then
      .error ("Failed to fetch registry: " ++ toString status)
    else
      match doc.version, doc.servers with
      | some v, some ss =>
        if v = "" then .error "Invalid registry format"
        else .ok { version := v, lastUpdated := doc.lastUpdated
                   servers := ss, stats := doc.stats }
      | _, _ => .error "Invalid registry format"

/-- `createFallbackRegistry` (registry.ts 232-266); `nowIso` stands for
the `new Date().toISOString()` calls. -/
def createFallbackRegistry (nowIso : String) : Registry :=
  { version := "1.0.0"
    lastUpdated := nowIso
    servers := [
      { id := "example-mcp"
        name := "Example MCP Server"
        description := "A sample MCP server for demonstration purposes"
        url := { scheme := "https", host := "example.com", port := none
                 path := "/mcp" }
        tags := ["example", "demo"]
        verified := true
        healthStatus := .unknown } ]
    stats := { totalServers := 1, onlineServers := 0, totalRequests := 0 } }

/-- The observable outcome of `getRegistry`: the snapshot returned and the
snapshot written to the cache (if the fetch succeeded on a cache miss). -/
structure GetRegistryOutcome where
  registry : Registry
  cachedWrite : Option Registry
deriving DecidableEq, Repr

/-- `getRegistry` (registry.ts 15-36): cached snapshot if present,
otherwise fetch + validate + cache, and on any failure the fallback
snapshot. -/
def getRegistry (cacheRes : Option Registry) (f : RegistryFetch)
    (nowIso : String) : GetRegistryOutcome :=
  match cacheRes with
  | some r => { registry := r, cachedWrite := none }
  | none =>
    match fetchRegistryFromGitHub f with
    | .ok r => { registry := r, cachedWrite := some r }
    | .error _ => { registry := createFallbackRegistry nowIso
                    cachedWrite := none }

/-! ### Search (registry.ts `searchServers`, router.ts `handleServersEndpoint`) -/

/-- The `q` filter body: case-insensitive substring match against name,
description, or any tag (registry.ts 184-189, router.ts 122-127). -/
def matchesQuery (q : String) (s : MCPServer) : Bool :=
  let searchTerm := strLower q
  strIncludes (strLower s.name) searchTerm ||
  strIncludes (strLower s.description) searchTerm ||
  s.tags.any (fun tag => strIncludes (strLower tag) searchTerm)

/-- The `tags` filter body: the server is included if any requested tag is
present (`tags.some(tag => server.tags.includes(tag))`). -/
def matchesTags (ts : List String) (s : MCPServer) : Bool :=
  ts.any (fun tag => s.tags.contains tag)

/-- `searchServers` (registry.ts 173-207).  `query = some ""` and
`tags = some []` are JavaScript-falsy and apply no filter, matching
`if (query)` and `if (tags && tags.length > 0)`; `verified` filters
whenever it is not undefined. -/
def searchServers (servers : List MCPServer) (query : Option String)
    (tags : Option (List String)) (verified : Option Bool) :
    List MCPServer :=
  let s1 := match query with
    | some q => if q = "" then servers else servers.filter (matchesQuery q)
    | none => servers
  let s2 := match tags with
    | some ts => if ts.isEmpty then s1 else s1.filter (matchesTags ts)
    | none => s1
  match verified with
  | some v => s2.filter (fun s => s.verified == v)
  | none => s2

/-- The conjunction-of-filters predicate the specification describes: a
record is returned iff it passes every given filter. -/
def searchPred (query : Option String) (tags : Option (List String))
    (verified : Option Bool) (s : MCPServer) : Bool :=
  (match query with
    | some q => if q = "" then true else matchesQuery q s
    | none => true) &&
  (match tags with
    | some ts => if ts.isEmpty then true else matchesTags ts s
    | none => true) &&
  (match verified with
    | some v => s.verified == v
    | none => true)

/-- Pagination block of the `GET /api/servers` response. -/
structure Pagination where
  total : Nat
  limit : Nat
  offset : Nat
  hasMore : Bool
deriving DecidableEq, Repr

/-- The list branch of `handleServersEndpoint` (router.ts 108-155):
inline filters (note that `verified` here is the boolean
`param === 'true'`, so only `verified=true` filters), then
`slice(offset, offset + limit)` and `hasMore = offset + limit < total`. -/
def handleServersList (servers : List MCPServer) (q : String)
    (tags : List String) (verifiedParam : Bool) (limit offset : Nat) :
    List MCPServer × Pagination :=
  let f1 := if q = "" then servers else servers.filter (matchesQuery q)
  let f2 := if tags.isEmpty then f1 else f1.filter (matchesTags tags)
  let f3 := if verifiedParam then f2.filter (fun s => s.verified) else f2
  let total := f3.length
  let page := (f3.drop offset).take limit
  (page, { total := total, limit := limit, offset := offset
           hasMore := decide (offset + limit < total) })

/-! ## Health monitor (worker/src/health.ts)

`checkServerHealth` is a pure classification of the probe's outcome; the
fetch result, the elapsed time, and the timestamp string are oracle
arguments.
-/

/-- Probe result, `serverId/status/responseTime/error/timestamp`. -/
structure HealthCheckResult where
  serverId : String
  status : CheckStatus
  responseTime : Option Nat
  error : Option String
  timestamp : String
deriving DecidableEq, Repr

/-- Outcome of the probe's `fetch(server.url, {method: 'HEAD', ...})`:
an HTTP response with a status code, a thrown `Error` with its `name` and
`message`, or a thrown non-`Error` value. -/
inductive ProbeOutcome where
  | response (status : Nat)
  | failure (name : String) (msg : String)
  | failureNonError
deriving DecidableEq, Repr

def HEALTH_CHECK_TIMEOUT : Nat := 30000

/-- `checkServerHealth` (health.ts 16-85).  `response.ok` is
`200 ≤ status ≤ 299` (the Fetch standard).  Success: degraded over 10 s,
online otherwise.  Non-ok: degraded at status ≥ 500, offline otherwise.
Thrown errors: `AbortError` or a message containing "timeout" → degraded
"Request timeout"; a message containing "fetch" or "network" → offline
"Network error"; any other `Error` → offline with the original message;
a non-`Error` throw → offline "Unknown error". -/
def checkServerHealth (sid : String) (outcome : ProbeOutcome)
    (elapsed : Nat) (ts : String) : HealthCheckResult :=
  match outcome with
  | .response status =>
    if 200 ≤ status ∧ status ≤ 299 then
      { serverId := sid
        status := if 10000 < elapsed then .degraded else .online
        responseTime := some elapsed, error := none, timestamp := ts }
    else if 500 ≤ status then
      { serverId := sid, status := .degraded
        responseTime := some elapsed, error := none, timestamp := ts }
    else
      { serverId := sid, status := .offline
        responseTime := some elapsed, error := none, timestamp := ts }
  | .failure nm msg =>
    if nm = "AbortError" || strIncludes msg "timeout" then
      { serverId := sid, status := .degraded
        responseTime := some elapsed, error := some "Request timeout"
        timestamp := ts }
    else if strIncludes msg "fetch" || strIncludes msg "network" then
      { serverId := sid, status := .offline
        responseTime := some elapsed, error := some "Network error"
        timestamp := ts }
    else
      { serverId := sid, status := .offline
        responseTime := some elapsed, error := some msg, timestamp := ts }
  | .failureNonError =>
    { serverId := sid, status := .offline
      responseTime := some elapsed, error := some "Unknown error"
      timestamp := ts }

def MAX_CONCURRENT_CHECKS : Nat := 10

/-- Partition a list into consecutive batches of at most
`MAX_CONCURRENT_CHECKS` elements, as the sweep's
`for (let i = 0; i < servers.length; i += MAX_CONCURRENT_CHECKS)` loop
does with `slice(i, i + MAX_CONCURRENT_CHECKS)`. -/
def chunkList {α : Type} : List α → List (List α)
  | [] => []
  | x :: xs =>
    (x :: xs).take MAX_CONCURRENT_CHECKS ::
      chunkList ((x :: xs).drop MAX_CONCURRENT_CHECKS)
termination_by l => l.length
decreasing_by
  simp only [MAX_CONCURRENT_CHECKS, List.length_drop, List.length_cons]
  omega

/-- The `.catch` fallback of the sweep (health.ts 104-112): a throwing
probe is recorded offline with the error message (no `responseTime`). -/
def offlineFallback (s : MCPServer) (msg ts : String) : HealthCheckResult :=
  { serverId := s.id, status := .offline, responseTime := none
    error := some msg, timestamp := ts }

/-- One probe of the sweep: `checkServerHealth(server).catch(...)`.
`threw s = some e` models the promise rejecting (despite
`checkServerHealth` catching internally); otherwise the classification
runs on the oracle outcome for that server. -/
def probeOne (threw : MCPServer → Option String)
    (outcome : MCPServer → ProbeOutcome) (elapsed : MCPServer → Nat)
    (ts : String) (s : MCPServer) : HealthCheckResult :=
  match threw s with
  | some e => offlineFallback s e ts
  | none => checkServerHealth s.id (outcome s) (elapsed s) ts

/-- `checkAllServersHealth` (health.ts 90-128): probe the servers in
sequential batches of at most 10 and concatenate the batch results in
order. -/
def checkAllServersHealth (threw : MCPServer → Option String)
    (outcome : MCPServer → ProbeOutcome) (elapsed : MCPServer → Nat)
    (ts : String) (servers : List MCPServer) : List HealthCheckResult :=
  ((chunkList servers).map
    (fun batch => batch.map (probeOne threw outcome elapsed ts))).flatten

/-- The aggregated summary persisted under `health:summary`
(health.ts 150-156). -/
structure HealthSummary where
  totalServers : Nat
  onlineServers : Nat
  degradedServers : Nat
  offlineServers : Nat
  lastUpdated : String
deriving DecidableEq, Repr

/-- `storeHealthCheckResults`'s summary computation. -/
def healthSummary (results : List HealthCheckResult) (nowIso : String) :
    HealthSummary :=
  { totalServers := results.length
    onlineServers := (results.filter (fun r => r.status = .online)).length
    degradedServers :=
      (results.filter (fun r => r.status = .degraded)).length
    offlineServers :=
      (results.filter (fun r => r.status = .offline)).length
    lastUpdated := nowIso }

/-! ## Schema federator (worker/src/schema-federation.ts)

`resolveToolConflicts`, `resolveResourceConflicts` and
`resolvePromptConflicts` are textually identical up to the entry type, so
they are embedded once, generically: an `Entry ε` is a tool/resource/
prompt definition split into the fields the algorithm reads (`name`,
`ns` = the optional `namespace` field) and an opaque payload `extra`
carrying the rest (description, schemas, uri, arguments, ...).

The JS `Map` used for grouping iterates its keys in insertion order, i.e.
first-occurrence order of the names, and each key's bucket holds all
entries with that name in original order; `groupByName` states exactly
that.
-/

/-- A tool / resource / prompt definition: the `name` and optional
`namespace` fields plus an opaque payload of the remaining fields. -/
structure Entry (ε : Type) where
  name : String
  ns : Option String
  extra : ε
deriving DecidableEq, Repr

/-- `t.namespace || 'unknown'`: JavaScript-falsy namespaces (absent or
empty) default to "unknown". -/
def nsOrUnknown (ns : Option String) : String :=
  match ns with
  | none => "unknown"
  | some s => if s = "" then "unknown" else s

/-- `{...tool, name: `${tool.namespace || 'unknown'}:${tool.name}`}`. -/
def renameEntry {ε : Type} (t : Entry ε) : Entry ε :=
  { t with name := nsOrUnknown t.ns ++ ":" ++ t.name }

/-- `conflict.type`: 'tool' | 'resource' | 'prompt'. -/
inductive ConflictType where
  | tool
  | resource
  | prompt
deriving DecidableEq, Repr

/-- `conflict.resolution`: 'namespace' | 'rename' | 'merge'.  The Lean
constructor for 'namespace' is `byNamespace` (the word is a Lean
keyword). -/
inductive Resolution where
  | byNamespace
  | rename
  | merge
deriving DecidableEq, Repr

/-- A `SchemaConflict` record. -/
structure SchemaConflict where
  type : ConflictType
  name : String
  servers : List String
  resolution : Resolution
deriving DecidableEq, Repr

/-- The distinct elements of `l` in first-occurrence order (the key order
of a JS `Map` filled by insertion). -/
def firstOccurrences : List String → List String
  | [] => []
  | n :: rest => n :: firstOccurrences (rest.filter (fun m => ¬ m = n))
termination_by l => l.length
decreasing_by
  simp only [List.length_cons]
  exact Nat.lt_succ_of_le (List.length_filter_le _ _)

/-- The grouping loop of `resolve*Conflicts` (schema-federation.ts
262-268): a `Map` from each name, in first-occurrence order, to the list
of all entries bearing that name, in original order. -/
def groupByName {ε : Type} (pool : List (Entry ε)) :
    List (String × List (Entry ε)) :=
  (firstOccurrences (pool.map (fun t => t.name))).map
    (fun n => (n, pool.filter (fun t => t.name = n)))

/-- The resolution loop (schema-federation.ts 273-294): singleton groups
pass through unchanged; larger groups contribute every member renamed to
`namespace:name` plus one conflict record naming all contributing
namespaces. -/
def resolveConflicts {ε : Type} (ty : ConflictType)
    (pool : List (Entry ε)) : List (Entry ε) × List SchemaConflict :=
  let grouped := groupByName pool
  let resolved :=
    (grouped.map (fun p =>
      if p.2.length = 1 then p.2 else p.2.map renameEntry)).flatten
  let conflicts := grouped.filterMap (fun p =>
    if p.2.length = 1 then none
    else some { type := ty, name := p.1
                servers := p.2.map (fun t => nsOrUnknown t.ns)
                resolution := .byNamespace })
  (resolved, conflicts)

/-- An `MCPSchema` as consumed by `mergeSchemas`: the per-kind entry
pools plus capability and namespace contributions.  `ToolExtra`,
`ResourceExtra`, `PromptExtra` are opaque payload types standing for the
fields the merge never reads. -/
structure ToolExtra where
  description : String
deriving DecidableEq, Repr

structure ResourceExtra where
  description : String
  uri : String
deriving DecidableEq, Repr

structure PromptExtra where
  description : String
deriving DecidableEq, Repr

structure MCPSchema where
  serverId : String
  ns : Option String
  tools : Option (List (Entry ToolExtra))
  resources : Option (List (Entry ResourceExtra))
  prompts : Option (List (Entry PromptExtra))
  capabilities : List String
deriving DecidableEq, Repr

/-- The merged federated schema (the fields the merge computes;
`version` and `lastUpdated` are constants/timestamps). -/
structure FederatedSchema where
  servers : List String
  tools : List (Entry ToolExtra)
  resources : List (Entry ResourceExtra)
  prompts : List (Entry PromptExtra)
  capabilities : List String
  namespaces : List String
  conflicts : List SchemaConflict
deriving DecidableEq, Repr

/-- Insertion-ordered de-duplicated union, as produced by filling a JS
`Set` and taking `Array.from` of it. -/
def setUnion (l : List String) : List String :=
  firstOccurrences l

/-- `mergeSchemas` (schema-federation.ts 211-249): pool the entries of
every schema (`schema.tools || []` etc.), resolve conflicts per kind, and
union capabilities and namespaces. -/
def mergeSchemas (schemas : List MCPSchema) : FederatedSchema :=
  let allTools := (schemas.map (fun s => s.tools.getD [])).flatten
  let allResources := (schemas.map (fun s => s.resources.getD [])).flatten
  let allPrompts := (schemas.map (fun s => s.prompts.getD [])).flatten
  let rt := resolveConflicts .tool allTools
  let rr := resolveConflicts .resource allResources
  let rp := resolveConflicts .prompt allPrompts
  { servers := schemas.map (fun s => s.serverId)
    tools := rt.1
    resources := rr.1
    prompts := rp.1
    capabilities := setUnion (schemas.map (fun s => s.capabilities)).flatten
    namespaces :=
      setUnion (schemas.filterMap (fun s => s.ns))
    conflicts := rt.2 ++ rr.2 ++ rp.2 }

/-! ## Proxy gateway (worker/src/proxy.ts)

`proxyRequest` is embedded with its collaborators' results as oracles:
the registry lookup (`serverLookup` = the `getServer` result), the rate
limiter verdict (`rlAllowed`), and the outbound `fetch` outcome.  The
`ProxyOutcome` record additionally exposes whether the outbound call was
issued (`fetchCalled`) and whether the same-origin check was the
rejecting step (`rejectedAtOrigin`), so the theorems can speak about the
control flow directly.  Header preparation (`prepareProxyHeaders`) and
logging (`logProxyRequest`) do not influence any verified property:
logging failures are swallowed by the source, and headers are passed
through from the fetch outcome.
-/

def PROXY_TIMEOUT : Nat := 30000

def MAX_BODY_SIZE : Nat := 10 * 1024 * 1024

def ALLOWED_METHODS : List String :=
  ["GET", "POST", "PUT", "PATCH", "DELETE", "HEAD", "OPTIONS"]

/-- A `ProxyResponse` (types.ts): success flag, HTTP status, statusText,
headers, body, response time, optional error. -/
structure ProxyResponse where
  success : Bool
  status : Nat
  statusText : String
  headers : List (String × String)
  body : String
  responseTime : Nat
  error : Option String
deriving DecidableEq, Repr

/-- Outcome of the proxied `fetch`: a response, or a thrown `Error` with
its `name` and `message` (an `AbortError` is the 30 s timeout firing). -/
inductive ProxyFetch where
  | ok (status : Nat) (statusText : String)
      (headers : List (String × String)) (body : String)
  | fail (name : String) (msg : String)
deriving DecidableEq, Repr

/-- Observable outcome of one `proxyRequest` call. -/
structure ProxyOutcome where
  resp : ProxyResponse
  fetchCalled : Bool
  rejectedAtOrigin : Bool
deriving DecidableEq, Repr

/-- The uniform failure response built by the outer catch of
`proxyRequest` (proxy.ts 143-155). -/
def proxyFailure (msg : String) (atOrigin : Bool) : ProxyOutcome :=
  { resp := { success := false, status := 500
              statusText := "Internal Server Error", headers := []
              body := "", responseTime := 0, error := some msg }
    fetchCalled := false
    rejectedAtOrigin := atOrigin }

/-- The message of the same-origin rejection (proxy.ts 53; the source
string spells "server's" with an apostrophe). -/
def originMismatchMsg : String :=
  "Target URL must be within the server domain"

/-- `proxyRequest` (proxy.ts 17-156).  Checks in source order: method
allow-list, registry lookup, offline status, rate limit, same-origin of
the resolved target, body size (only for body-carrying methods, and only
for a JavaScript-truthy body), then the bounded fetch; every thrown error
is converted by the outer catch into a success=false / status 500
response. -/
def proxyRequest (serverId : String) (serverLookup : Option MCPServer)
    (rlAllowed : Bool)
    (method : String) (targetPath : TargetPath) (body : Option String)
    (fetchRes : ProxyFetch) (elapsed : Nat) : ProxyOutcome :=
  if ¬ ALLOWED_METHODS.contains (strUpper method) then
    proxyFailure ("Method " ++ method ++ " not allowed") false
  else
    match serverLookup with
    | none => proxyFailure ("Server " ++ serverId ++ " not found") false
    | some server =>
      if server.healthStatus = .offline then
        proxyFailure ("Server " ++ server.id ++ " is currently offline")
          false
      else if rlAllowed = false then
        proxyFailure "Rate limit exceeded" false
      else
        let targetUrl := resolveURL targetPath server.url
        if ¬ targetUrl.origin = server.url.origin then
          proxyFailure originMismatchMsg true
        else
          let proxyBody : Option String :=
            match body with
            | some b =>
              if ¬ b = "" &&
                  ["POST", "PUT", "PATCH"].contains (strUpper method) then
                some b
              else none
            | none => none
          if (match proxyBody with
              | some b => decide (MAX_BODY_SIZE < b.length)
              | none => false) then
            proxyFailure "Request body too large" false
          else
            match fetchRes with
            | .ok status statusText headers respBody =>
              { resp := { success := true, status := status
                          statusText := statusText, headers := headers
                          body := respBody, responseTime := elapsed
                          error := none }
                fetchCalled := true
                rejectedAtOrigin := false }
            | .fail nm msg =>
              { resp := { success := false, status := 500
                          statusText := "Internal Server Error"
                          headers := [], body := "", responseTime := 0
                          error := some (if nm = "AbortError"
                            then "Request timeout" else msg) }
                fetchCalled := true
                rejectedAtOrigin := false }

/-- What `handleProxyEndpoint` (router.ts 296-351) turns the
`proxyRequest` result into: on success, a response with the upstream
status; on failure, `createErrorResponse(error, result.status)`, which
keeps the status carried by the `ProxyResponse`. -/
structure RouterResponse where
  status : Nat
  success : Bool
  error : Option String
deriving DecidableEq, Repr

def handleProxyResult (o : ProxyOutcome) : RouterResponse :=
  if o.resp.success then
    { status := o.resp.status, success := true, error := none }
  else
    { status := o.resp.status, success := false, error := o.resp.error }

/-! ## Theorems -/

/-- C1: for every proxy forward, a resolved target whose origin differs
from the registered server's origin is rejected (success = false) with no
outbound call; when the checks before it pass, the same-origin guard is
the rejecting step; and when the origins are equal the guard never
fires. -/
theorem proxy_same_origin_guard (serverId : String) (server : MCPServer)
    (rlAllowed : Bool) (method : String) (targetPath : TargetPath)
    (body : Option String) (fetchRes : ProxyFetch) (elapsed : Nat) :
    (¬ (resolveURL targetPath server.url).origin = server.url.origin →
      (proxyRequest serverId (some server) rlAllowed method targetPath
        body fetchRes elapsed).resp.success = false ∧
      (proxyRequest serverId (some server) rlAllowed method targetPath
        body fetchRes elapsed).fetchCalled = false ∧
      (ALLOWED_METHODS.contains (strUpper method) = true →
        ¬ server.healthStatus = .offline → rlAllowed = true →
        (proxyRequest serverId (some server) rlAllowed method targetPath
          body fetchRes elapsed).rejectedAtOrigin = true)) ∧
    ((resolveURL targetPath server.url).origin = server.url.origin →
      (proxyRequest serverId (some server) rlAllowed method targetPath
        body fetchRes elapsed).rejectedAtOrigin = false) := by
  cases fetchRes <;>
    refine ⟨fun hne => ?_, fun heq => ?_⟩ <;>
    simp only [proxyRequest] <;>
    split_ifs <;>
    simp_all [proxyFailure]

/-- Concrete instance for `proxy_same_origin_guard`: a registered server
at `https://a.example` and an absolute target `https://evil.example/x`. -/
theorem proxy_same_origin_guard_witness :
    (proxyRequest "a" (some
        { id := "a", name := "A", description := ""
          url := { scheme := "https", host := "a.example", port := none
                   path := "/" }
          tags := [], verified := true, healthStatus := .online })
      true "GET"
      (.abs { scheme := "https", host := "evil.example", port := none
              path := "/x" })
      none (.ok 200 "OK" [] "") 5).resp.success = false ∧
    (proxyRequest "a" (some
        { id := "a", name := "A", description := ""
          url := { scheme := "https", host := "a.example", port := none
                   path := "/" }
          tags := [], verified := true, healthStatus := .online })
      true "GET"
      (.abs { scheme := "https", host := "evil.example", port := none
              path := "/x" })
      none (.ok 200 "OK" [] "") 5).fetchCalled = false ∧
    (proxyRequest "a" (some
        { id := "a", name := "A", description := ""
          url := { scheme := "https", host := "a.example", port := none
                   path := "/" }
          tags := [], verified := true, healthStatus := .online })
      true "GET"
      (.abs { scheme := "https", host := "evil.example", port := none
              path := "/x" })
      none (.ok 200 "OK" [] "") 5).rejectedAtOrigin = true := by
  have h := proxy_same_origin_guard "a"
    { id := "a", name := "A", description := ""
      url := { scheme := "https", host := "a.example", port := none
               path := "/" }
      tags := [], verified := true, healthStatus := .online }
    true "GET"
    (.abs { scheme := "https", host := "evil.example", port := none
            path := "/x" })
    none (.ok 200 "OK" [] "") 5
  have h2 := h.1 (by decide)
  exact ⟨h2.1, h2.2.1, h2.2.2 (by decide) (by decide) rfl⟩

/-- Every `proxyRequest` outcome is either the success response built
from the upstream fetch, or a failure response with status 500. -/
theorem proxyRequest_shape (serverId : String)
    (serverLookup : Option MCPServer) (rlAllowed : Bool) (method : String)
    (targetPath : TargetPath) (body : Option String)
    (fetchRes : ProxyFetch) (elapsed : Nat) :
    (proxyRequest serverId serverLookup rlAllowed method targetPath body
      fetchRes elapsed).resp.success = true ∨
    ((proxyRequest serverId serverLookup rlAllowed method targetPath body
        fetchRes elapsed).resp.success = false ∧
      (proxyRequest serverId serverLookup rlAllowed method targetPath body
        fetchRes elapsed).resp.status = 500 ∧
      (proxyRequest serverId serverLookup rlAllowed method targetPath body
        fetchRes elapsed).resp.statusText = "Internal Server Error") := by
  cases fetchRes <;> cases serverLookup <;>
    simp only [proxyRequest] <;> split_ifs <;>
    first
      | exact Or.inl rfl
      | (right; simp [proxyFailure])

/-- C10: `proxyRequest` is total (it is a Lean function into
`ProxyOutcome`) and reports every failure uniformly: whenever
`success = false` the response carries status 500 "Internal Server
Error", and the proxy HTTP endpoint forwards that 500 to the caller;
in particular an unknown server and a rate-limit rejection both surface
as success = false (hence 500, not 404 or 429). -/
theorem proxy_uniform_500 (serverId : String)
    (serverLookup : Option MCPServer) (rlAllowed : Bool) (method : String)
    (targetPath : TargetPath) (body : Option String)
    (fetchRes : ProxyFetch) (elapsed : Nat) :
    ((proxyRequest serverId serverLookup rlAllowed method targetPath body
        fetchRes elapsed).resp.success = false →
      (proxyRequest serverId serverLookup rlAllowed method targetPath body
        fetchRes elapsed).resp.status = 500 ∧
      (proxyRequest serverId serverLookup rlAllowed method targetPath body
        fetchRes elapsed).resp.statusText = "Internal Server Error" ∧
      (handleProxyResult (proxyRequest serverId serverLookup rlAllowed
        method targetPath body fetchRes elapsed)).status = 500) ∧
    (serverLookup = none →
      (proxyRequest serverId serverLookup rlAllowed method targetPath body
        fetchRes elapsed).resp.success = false) ∧
    (rlAllowed = false →
      (proxyRequest serverId serverLookup rlAllowed method targetPath body
        fetchRes elapsed).resp.success = false) := by
  refine ⟨fun h => ?_, fun h => ?_, fun h => ?_⟩
  · rcases proxyRequest_shape serverId serverLookup rlAllowed method
      targetPath body fetchRes elapsed with hs | hs
    · rw [hs] at h; cases h
    · exact ⟨hs.2.1, hs.2.2, by simp [handleProxyResult, h, hs.2.1]⟩
  · subst h
    cases fetchRes <;> simp only [proxyRequest] <;> split_ifs <;>
      simp [proxyFailure]
  · subst h
    cases serverLookup <;> cases fetchRes <;>
      simp only [proxyRequest] <;> split_ifs <;>
      simp_all [proxyFailure]

/-- Concrete instance for `proxy_uniform_500`: an unknown server id is
reported as a 500, not a 404. -/
theorem proxy_uniform_500_witness :
    (proxyRequest "ghost" none true "GET" (.rel "/ping") none
      (.ok 200 "OK" [] "") 5).resp.success = false ∧
    (handleProxyResult (proxyRequest "ghost" none true "GET" (.rel "/ping")
      none (.ok 200 "OK" [] "") 5)).status = 500 := by
  have h := proxy_uniform_500 "ghost" none true "GET" (.rel "/ping") none
    (.ok 200 "OK" [] "") 5
  have hs := h.2.1 rfl
  exact ⟨hs, (h.1 hs).2.2⟩

/-- C9: whenever a backing-store operation raises during a rate-limit
check (read threw, or the write was attempted and failed), the limiter
fails open and admits the request. -/
theorem ratelimit_fails_open (now : Int) (ipKnown : Bool)
    (readRes : Except String (Option (List Int))) (writeOk : Bool) :
    (checkRateLimit now ipKnown readRes writeOk).storeErrored = true →
    (checkRateLimit now ipKnown readRes writeOk).result.allowed = true := by
  unfold checkRateLimit
  split_ifs <;> cases readRes <;> simp_all <;> split_ifs <;> simp_all

/-- Concrete instance for `ratelimit_fails_open`: a throwing KV read
still admits the request. -/
theorem ratelimit_fails_open_witness :
    (checkRateLimit 1000 true (.error "kv unavailable") true).result.allowed
      = true := by
  exact ratelimit_fails_open 1000 true (.error "kv unavailable") true rfl

/-- C7: after `set(key, value, ttl)` at time `t0`, a `get` at or before
the logical expiry `t0 + ttl*1000` returns the stored value, and a `get`
after the logical expiry — even while the store's own expiry
`t0 + (ttl+60)*1000` has not yet fired — deletes the key and returns a
miss. -/
theorem cache_logical_expiry {δ : Type} (kv : KVStore δ) (key : String)
    (data : δ) (ttl t0 t : Nat) :
    (t0 ≤ t → t ≤ t0 + ttl * 1000 →
      (getCachedData (setCachedData kv t0 key data ttl) t key).1 =
        some data) ∧
    (t0 + ttl * 1000 < t → t < t0 + (ttl + 60) * 1000 →
      (getCachedData (setCachedData kv t0 key data ttl) t key).1 = none ∧
      kvGet (getCachedData (setCachedData kv t0 key data ttl) t key).2 t
        key = none) := by
  have hfind :
      (setCachedData kv t0 key data ttl).find? (fun p => p.1 = key) =
        some (key,
          { entry := { data := data, timestamp := t0, ttl := ttl }
            kvExpireAt := t0 + (ttl + 60) * 1000 }) := by
    simp [setCachedData, kvPut, List.find?_cons]
  constructor
  · intro h1 h2
    have hvis : t < t0 + (ttl + 60) * 1000 := by omega
    have hcond : ¬ (t > t0 + ttl * 1000) := by omega
    simp [getCachedData, kvGet, hfind, hvis, hcond]
  · intro h1 h2
    have hdel : (getCachedData (setCachedData kv t0 key data ttl) t key) =
        (none, kvDelete (setCachedData kv t0 key data ttl) key) := by
      simp [getCachedData, kvGet, hfind, h2]
      omega
    refine ⟨by rw [hdel], ?_⟩
    rw [hdel]
    simp only [kvGet, kvDelete]
    have hnone : ((setCachedData kv t0 key data ttl).filter
        (fun p => ¬ p.1 = key)).find? (fun p => p.1 = key) = none := by
      rw [List.find?_eq_none]
      intro p hp
      have hmem := List.mem_filter.mp hp
      simpa using hmem.2
    rw [hnone]

/-- Concrete instance for `cache_logical_expiry`: value 42 written with
ttl 5 s at t=1000 ms is retrievable at 3000 ms and a miss at 7000 ms,
before the store's own expiry at 66000 ms. -/
theorem cache_logical_expiry_witness :
    (getCachedData (setCachedData ([] : KVStore Nat) 1000 "k" 42 5) 3000
      "k").1 = some 42 ∧
    (getCachedData (setCachedData ([] : KVStore Nat) 1000 "k" 42 5) 7000
      "k").1 = none := by
  exact ⟨(cache_logical_expiry [] "k" 42 5 1000 3000).1 (by decide)
      (by decide),
    ((cache_logical_expiry [] "k" 42 5 1000 7000).2 (by decide)
      (by decide)).1⟩

/-- C8: `getRegistry` never propagates a failure: a cache hit is returned
as-is; on a cache miss a successful, shape-valid fetch is cached and
returned; and on a fetch error, a non-ok response, or an invalid
top-level shape it returns the built-in fallback snapshot, which contains
exactly one server record. -/
theorem getRegistry_fallback (cacheRes : Option Registry)
    (f : RegistryFetch) (nowIso : String) :
    (∀ r, cacheRes = some r →
      getRegistry cacheRes f nowIso = { registry := r, cachedWrite := none }) ∧
    (∀ r, cacheRes = none → fetchRegistryFromGitHub f = .ok r →
      getRegistry cacheRes f nowIso =
        { registry := r, cachedWrite := some r }) ∧
    (∀ e, cacheRes = none → fetchRegistryFromGitHub f = .error e →
      (getRegistry cacheRes f nowIso).registry =
          createFallbackRegistry nowIso ∧
      (getRegistry cacheRes f nowIso).cachedWrite = none) ∧
    (∀ ok st doc, cacheRes = none → f = .response ok st doc →
      (doc.version = none ∨ doc.servers = none) →
      (getRegistry cacheRes f nowIso).registry =
        createFallbackRegistry nowIso) ∧
    (createFallbackRegistry nowIso).servers.length = 1 := by
  refine ⟨?_, ?_, ?_, ?_, rfl⟩
  · intro r h; subst h; rfl
  · intro r h hf; subst h; simp [getRegistry, hf]
  · intro e h hf; subst h; simp [getRegistry, hf]
  · intro ok st doc h hf hbad
    subst h; subst hf
    rcases doc with ⟨v, lu, ss, stats⟩
    cases ok <;> cases v <;> cases ss <;>
      simp_all [getRegistry, fetchRegistryFromGitHub]

/-- Concrete instance for `getRegistry_fallback`: a cache miss plus an
ok response whose document has no `servers` array yields the fallback
snapshot. -/
theorem getRegistry_fallback_witness :
    (getRegistry none
        (.response true 200
          { version := some "1.0.0", lastUpdated := "", servers := none
            stats := { totalServers := 0, onlineServers := 0
                       totalRequests := 0 } })
        "now").registry = createFallbackRegistry "now" ∧
    (createFallbackRegistry "now").servers.length = 1 := by
  have h := getRegistry_fallback none
    (.response true 200
      { version := some "1.0.0", lastUpdated := "", servers := none
        stats := { totalServers := 0, onlineServers := 0
                   totalRequests := 0 } })
    "now"
  exact ⟨h.2.2.2.1 true 200 _ rfl rfl (Or.inr rfl), h.2.2.2.2⟩

/-- C3 counterexample: a transport failure whose message is
"connection refused" (which mentions neither "fetch" nor "network") is
classified offline but keeps the original message as its reason — it is
neither "network error" nor the source's literal "Network error", so the
claim's clause "any other transport failure yields offline with reason
'network error'" is false at this input. -/
theorem health_reason_counterexample :
    (checkServerHealth "s1" (.failure "Error" "connection refused") 5
      "t").status = CheckStatus.offline ∧
    (checkServerHealth "s1" (.failure "Error" "connection refused") 5
      "t").error = some "connection refused" ∧
    ¬ ((checkServerHealth "s1" (.failure "Error" "connection refused") 5
      "t").error = some "network error") ∧
    ¬ ((checkServerHealth "s1" (.failure "Error" "connection refused") 5
      "t").error = some "Network error") := by
  decide

/-- C3 (amended): the probe classification, exactly as the code computes
it.  HTTP success (2xx) with elapsed ≤ 10 s → online, > 10 s → degraded;
status ≥ 500 → degraded; any other non-success response → offline; an
abort (the 30 s timeout) or a failure message containing "timeout" →
degraded with reason "Request timeout"; any other transport failure →
offline, with reason "Network error" when the failure message contains
"fetch" or "network" and the original failure message otherwise. -/
theorem health_classification (sid : String) (outcome : ProbeOutcome)
    (elapsed : Nat) (ts : String) :
    (checkServerHealth sid outcome elapsed ts).serverId = sid ∧
    (checkServerHealth sid outcome elapsed ts).timestamp = ts ∧
    (∀ st, outcome = .response st →
      ((200 ≤ st ∧ st ≤ 299) → elapsed ≤ 10000 →
        (checkServerHealth sid outcome elapsed ts).status = .online) ∧
      ((200 ≤ st ∧ st ≤ 299) → 10000 < elapsed →
        (checkServerHealth sid outcome elapsed ts).status = .degraded) ∧
      (¬ (200 ≤ st ∧ st ≤ 299) → 500 ≤ st →
        (checkServerHealth sid outcome elapsed ts).status = .degraded) ∧
      (¬ (200 ≤ st ∧ st ≤ 299) → st < 500 →
        (checkServerHealth sid outcome elapsed ts).status = .offline)) ∧
    (∀ nm msg, outcome = .failure nm msg →
      ((nm = "AbortError" ∨ strIncludes msg "timeout" = true) →
        (checkServerHealth sid outcome elapsed ts).status = .degraded ∧
        (checkServerHealth sid outcome elapsed ts).error =
          some "Request timeout") ∧
      (¬ nm = "AbortError" → strIncludes msg "timeout" = false →
        (strIncludes msg "fetch" = true ∨
            strIncludes msg "network" = true) →
        (checkServerHealth sid outcome elapsed ts).status = .offline ∧
        (checkServerHealth sid outcome elapsed ts).error =
          some "Network error") ∧
      (¬ nm = "AbortError" → strIncludes msg "timeout" = false →
        strIncludes msg "fetch" = false → strIncludes msg "network" = false →
        (checkServerHealth sid outcome elapsed ts).status = .offline ∧
        (checkServerHealth sid outcome elapsed ts).error = some msg)) ∧
    (outcome = .failureNonError →
      (checkServerHealth sid outcome elapsed ts).status = .offline ∧
      (checkServerHealth sid outcome elapsed ts).error =
        some "Unknown error") := by
  have hsid : (checkServerHealth sid outcome elapsed ts).serverId = sid := by
    cases outcome <;> simp only [checkServerHealth] <;> split_ifs <;> rfl
  have hts : (checkServerHealth sid outcome elapsed ts).timestamp = ts := by
    cases outcome <;> simp only [checkServerHealth] <;> split_ifs <;> rfl
  refine ⟨hsid, hts, ?_, ?_, ?_⟩
  · intro st heq
    subst heq
    simp only [checkServerHealth]
    split_ifs with h1 h2 h3 <;>
      refine ⟨fun ha hb => ?_, fun ha hb => ?_, fun ha hb => ?_,
        fun ha hb => ?_⟩ <;>
      first
        | rfl
        | (exfalso; omega)
  · intro nm msg heq
    subst heq
    simp only [checkServerHealth]
    split_ifs with hA hB <;>
      refine ⟨fun hc => ?_, fun hc hd he => ?_, fun hc hd he hf => ?_⟩ <;>
      simp_all
  · intro heq
    subst heq
    exact ⟨rfl, rfl⟩

/-- Concrete instances for `health_classification`: a fast 200 is
online, a slow 200 is degraded, a 503 is degraded, a 404 is offline, and
an abort is degraded with reason "Request timeout". -/
theorem health_classification_witness :
    (checkServerHealth "s" (.response 200) 500 "t").status = .online ∧
    (checkServerHealth "s" (.response 200) 20000 "t").status = .degraded ∧
    (checkServerHealth "s" (.response 503) 500 "t").status = .degraded ∧
    (checkServerHealth "s" (.response 404) 500 "t").status = .offline ∧
    (checkServerHealth "s" (.failure "AbortError" "The operation was aborted")
        500 "t").status = .degraded ∧
    (checkServerHealth "s" (.failure "AbortError" "The operation was aborted")
        500 "t").error = some "Request timeout" := by
  refine ⟨((health_classification "s" (.response 200) 500 "t").2.2.1 200
      rfl).1 (by omega) (by omega),
    ((health_classification "s" (.response 200) 20000 "t").2.2.1 200
      rfl).2.1 (by omega) (by omega),
    ((health_classification "s" (.response 503) 500 "t").2.2.1 503
      rfl).2.2.1 (by omega) (by omega),
    ((health_classification "s" (.response 404) 500 "t").2.2.1 404
      rfl).2.2.2 (by omega) (by omega),
    ?_, ?_⟩ <;>
  · have h := ((health_classification "s"
      (.failure "AbortError" "The operation was aborted") 500
      "t").2.2.2.1 "AbortError" "The operation was aborted" rfl).1
      (Or.inl rfl)
    first
      | exact h.1
      | exact h.2

/-- C6: `searchServers` returns exactly the snapshot records satisfying
the conjunction of the given filters, in snapshot order (it is a `filter`
of the snapshot); with no filters it returns the full snapshot.  In the
`GET /api/servers` handler the returned page is the slice
`[offset, offset+limit)` of the records matching its filters and
`hasMore = offset + limit < totalMatched`. -/
theorem search_conjunction (servers : List MCPServer)
    (query : Option String) (tags : Option (List String))
    (verified : Option Bool) :
    searchServers servers query tags verified =
      servers.filter (searchPred query tags verified) ∧
    searchServers servers none none none = servers ∧
    (∀ (q : String) (tcsv : List String) (vp : Bool) (limit offset : Nat),
      (handleServersList servers q tcsv vp limit offset).1 =
        ((servers.filter (searchPred (some q) (some tcsv)
          (if vp then some true else none))).drop offset).take limit ∧
      (handleServersList servers q tcsv vp limit offset).2.hasMore =
        decide (offset + limit <
          (servers.filter (searchPred (some q) (some tcsv)
            (if vp then some true else none))).length)) := by
  have key : ∀ (q : Option String) (t : Option (List String))
      (v : Option Bool),
      searchServers servers q t v = servers.filter (searchPred q t v) := by
    intro q t v
    rcases q with _ | q <;> rcases t with _ | t <;> rcases v with _ | v <;>
      simp only [searchServers] <;>
      (try split_ifs) <;>
      (try simp only [List.filter_filter]) <;>
      first
        | (symm; rw [List.filter_eq_self]; intro s hs;
            simp_all [searchPred])
        | (apply List.filter_congr; intro s hs;
            simp_all [searchPred, Bool.and_assoc, Bool.and_comm,
              Bool.and_left_comm])
  have hend : ∀ (q : String) (tcsv : List String) (vp : Bool),
      (if vp then
          (if tcsv.isEmpty then
              (if q = "" then servers else servers.filter (matchesQuery q))
            else (if q = "" then servers
              else servers.filter (matchesQuery q)).filter
                (matchesTags tcsv)).filter (fun s => s.verified)
        else
          (if tcsv.isEmpty then
              (if q = "" then servers else servers.filter (matchesQuery q))
            else (if q = "" then servers
              else servers.filter (matchesQuery q)).filter
                (matchesTags tcsv))) =
      servers.filter (searchPred (some q) (some tcsv)
        (if vp then some true else none)) := by
    intro q tcsv vp
    cases vp <;>
      split_ifs <;>
      (try simp only [List.filter_filter]) <;>
      first
        | (symm; rw [List.filter_eq_self]; intro s hs;
            simp_all [searchPred])
        | (apply List.filter_congr; intro s hs;
            simp_all [searchPred, Bool.and_assoc, Bool.and_comm,
              Bool.and_left_comm])
  refine ⟨key query tags verified,
    (key none none none).trans (List.filter_eq_self.mpr
      (fun s hs => by simp [searchPred])), ?_⟩
  intro q tcsv vp limit offset
  constructor
  · simp only [handleServersList]
    rw [hend q tcsv vp]
  · simp only [handleServersList]
    rw [hend q tcsv vp]

/-- Concatenating the sweep's batches gives back the server list. -/
theorem chunkList_flatten {α : Type} (l : List α) :
    (chunkList l).flatten = l := by
  induction l using chunkList.induct with
  | case1 => simp [chunkList]
  | case2 x xs ih =>
    rw [chunkList]
    simp [ih]

/-- The sweep issues `⌈N / 10⌉` batches. -/
theorem chunkList_length {α : Type} (l : List α) :
    (chunkList l).length = (l.length + 9) / 10 := by
  induction l using chunkList.induct with
  | case1 => simp [chunkList]
  | case2 x xs ih =>
    rw [chunkList]
    simp only [List.length_cons, List.length_drop, MAX_CONCURRENT_CHECKS]
      at ih ⊢
    omega

/-- Every batch holds at most 10 servers. -/
theorem chunkList_batch_le {α : Type} (l : List α) (b : List α)
    (hb : b ∈ chunkList l) : b.length ≤ 10 := by
  induction l using chunkList.induct with
  | case1 => simp [chunkList] at hb
  | case2 x xs ih =>
    rw [chunkList] at hb
    rcases List.mem_cons.mp hb with h | h
    · subst h
      simp [MAX_CONCURRENT_CHECKS]
    · exact ih h

/-- `checkServerHealth` always reports the probed server's id. -/
theorem checkServerHealth_serverId_eq (sid : String) (o : ProbeOutcome)
    (e : Nat) (t : String) : (checkServerHealth sid o e t).serverId = sid := by
  cases o <;> simp only [checkServerHealth] <;> split_ifs <;> rfl

/-- The three probe statuses partition any result list. -/
theorem health_counts_sum (rs : List HealthCheckResult) :
    (rs.filter (fun r => r.status = .online)).length +
      (rs.filter (fun r => r.status = .degraded)).length +
      (rs.filter (fun r => r.status = .offline)).length = rs.length := by
  induction rs with
  | nil => rfl
  | cons r rs ih =>
    rcases hst : r.status <;> simp [List.filter_cons, hst] <;> omega

/-- C5: the full health sweep partitions N servers into `⌈N/10⌉`
sequential batches of at most 10, a throwing probe contributes an
offline result carrying the error message instead of aborting the sweep,
the sweep returns exactly one result per server (in order), and the
persisted summary counts satisfy online + degraded + offline =
totalServers = N. -/
theorem health_sweep_batches (threw : MCPServer → Option String)
    (outcome : MCPServer → ProbeOutcome) (elapsed : MCPServer → Nat)
    (ts nowIso : String) (servers : List MCPServer) :
    (chunkList servers).length = (servers.length + 9) / 10 ∧
    (∀ b ∈ chunkList servers, b.length ≤ 10) ∧
    (chunkList servers).flatten = servers ∧
    checkAllServersHealth threw outcome elapsed ts servers =
      servers.map (probeOne threw outcome elapsed ts) ∧
    (checkAllServersHealth threw outcome elapsed ts servers).map
      (fun r => r.serverId) = servers.map (fun s => s.id) ∧
    (∀ s ∈ servers, ∀ e, threw s = some e →
      offlineFallback s e ts ∈
        checkAllServersHealth threw outcome elapsed ts servers) ∧
    (healthSummary (checkAllServersHealth threw outcome elapsed ts servers)
      nowIso).totalServers = servers.length ∧
    (healthSummary (checkAllServersHealth threw outcome elapsed ts servers)
        nowIso).onlineServers +
      (healthSummary (checkAllServersHealth threw outcome elapsed ts
        servers) nowIso).degradedServers +
      (healthSummary (checkAllServersHealth threw outcome elapsed ts
        servers) nowIso).offlineServers = servers.length := by
  have heq : checkAllServersHealth threw outcome elapsed ts servers =
      servers.map (probeOne threw outcome elapsed ts) := by
    unfold checkAllServersHealth
    rw [← List.map_flatten, chunkList_flatten]
  have hlen : (checkAllServersHealth threw outcome elapsed ts
      servers).length = servers.length := by
    rw [heq, List.length_map]
  refine ⟨chunkList_length servers, fun b hb => chunkList_batch_le _ b hb,
    chunkList_flatten servers, heq, ?_, ?_, ?_, ?_⟩
  · rw [heq, List.map_map]
    refine List.map_congr_left (fun s hs => ?_)
    simp only [Function.comp_apply, probeOne]
    cases hth : threw s
    · exact checkServerHealth_serverId_eq _ _ _ _
    · rfl
  · intro s hs e hth
    rw [heq]
    have : probeOne threw outcome elapsed ts s = offlineFallback s e ts := by
      simp [probeOne, hth]
    exact this ▸ List.mem_map_of_mem _ hs
  · simp [healthSummary, hlen]
  · simp only [healthSummary]
    rw [health_counts_sum, hlen]

/-- Concrete instance for `health_sweep_batches`: two servers, the second
probe throwing, yield one result each, with the thrown error recorded as
an offline result and summary counts 1 + 0 + 1 = 2. -/
theorem health_sweep_batches_witness :
    (checkAllServersHealth
      (fun s => if s.id = "b" then some "boom" else none)
      (fun _ => .response 200) (fun _ => 5) "t"
      [{ id := "a", name := "A", description := ""
         url := { scheme := "https", host := "a.example", port := none
                  path := "/" }
         tags := [], verified := true, healthStatus := .online },
       { id := "b", name := "B", description := ""
         url := { scheme := "https", host := "b.example", port := none
                  path := "/" }
         tags := [], verified := true, healthStatus := .online }]).map
      (fun r => r.serverId) = ["a", "b"] ∧
    offlineFallback
      { id := "b", name := "B", description := ""
        url := { scheme := "https", host := "b.example", port := none
                 path := "/" }
        tags := [], verified := true, healthStatus := .online } "boom" "t" ∈
      checkAllServersHealth
        (fun s => if s.id = "b" then some "boom" else none)
        (fun _ => .response 200) (fun _ => 5) "t"
        [{ id := "a", name := "A", description := ""
           url := { scheme := "https", host := "a.example", port := none
                    path := "/" }
           tags := [], verified := true, healthStatus := .online },
         { id := "b", name := "B", description := ""
           url := { scheme := "https", host := "b.example", port := none
                    path := "/" }
           tags := [], verified := true, healthStatus := .online }] := by
  have h := health_sweep_batches
    (fun s => if s.id = "b" then some "boom" else none)
    (fun _ => .response 200) (fun _ => 5) "t" "now"
    [{ id := "a", name := "A", description := ""
       url := { scheme := "https", host := "a.example", port := none
                path := "/" }
       tags := [], verified := true, healthStatus := .online },
     { id := "b", name := "B", description := ""
       url := { scheme := "https", host := "b.example", port := none
                path := "/" }
       tags := [], verified := true, healthStatus := .online }]
  refine ⟨h.2.2.2.2.1, ?_⟩
  refine h.2.2.2.2.2.1 _ ?_ "boom" (by decide)
  simp

/-- `firstOccurrences` preserves membership. -/
theorem mem_firstOccurrences (l : List String) (a : String) :
    a ∈ firstOccurrences l ↔ a ∈ l := by
  induction l using firstOccurrences.induct with
  | case1 => simp [firstOccurrences]
  | case2 n rest ih =>
    rw [firstOccurrences]
    by_cases h : a = n
    · subst h; simp
    · simp only [List.mem_cons, h, false_or, ih, List.mem_filter]
      constructor
      · exact fun hx => hx.1
      · exact fun hx => ⟨hx, by simp [h]⟩

/-- `firstOccurrences` has no duplicates. -/
theorem nodup_firstOccurrences (l : List String) :
    (firstOccurrences l).Nodup := by
  induction l using firstOccurrences.induct with
  | case1 => simp [firstOccurrences]
  | case2 n rest ih =>
    rw [firstOccurrences, List.nodup_cons]
    refine ⟨fun hmem => ?_, ih⟩
    rw [mem_firstOccurrences] at hmem
    simp [List.mem_filter] at hmem

/-- In a duplicate-free list containing `a`, filtering for `a` yields
exactly `[a]`. -/
theorem filter_eq_single_of_nodup (l : List String) (h : l.Nodup)
    (a : String) (ha : a ∈ l) : l.filter (fun x => x = a) = [a] := by
  induction l with
  | nil => cases ha
  | cons b bs ih =>
    rw [List.nodup_cons] at h
    rcases List.mem_cons.mp ha with hba | hmem
    · subst hba
      have hnil : bs.filter (fun x => x = a) = [] := by
        rw [List.filter_eq_nil_iff]
        intro x hx
        simp only [decide_eq_true_eq]
        intro hxa
        exact h.1 (hxa ▸ hx)
      simp [List.filter_cons, hnil]
    · have hb : ¬ (b = a) := fun hba => h.1 (hba ▸ hmem)
      simp [List.filter_cons, hb, ih h.2 hmem]

/-- Filtering for an absent key yields `[]`. -/
theorem filter_eq_nil_of_not_mem (l : List String) (a : String)
    (ha : a ∉ l) : l.filter (fun x => x = a) = [] := by
  rw [List.filter_eq_nil_iff]
  intro x hx
  simp only [decide_eq_true_eq]
  intro hxa
  exact ha (hxa ▸ hx)

/-- The unique group a present name contributes to `groupByName`. -/
theorem groupByName_filter_of_mem {ε : Type} (pool : List (Entry ε))
    (nm : String) (h : nm ∈ pool.map (fun t => t.name)) :
    (groupByName pool).filter (fun p => p.1 = nm) =
      [(nm, pool.filter (fun t => t.name = nm))] := by
  unfold groupByName
  rw [List.filter_map]
  have hcomp : ((fun p : String × List (Entry ε) => decide (p.1 = nm)) ∘
      (fun n => (n, pool.filter (fun t => t.name = nm)))) =
      (fun n => decide (n = nm)) := rfl
  have hkeys : (firstOccurrences (pool.map (fun t => t.name))).filter
      (fun n => n = nm) = [nm] :=
    filter_eq_single_of_nodup _ (nodup_firstOccurrences _) nm
      ((mem_firstOccurrences _ nm).mpr h)
  calc ((firstOccurrences (pool.map (fun t => t.name))).filter
        (fun n => ((n, pool.filter (fun t => t.name = n)).1 = nm))).map
        (fun n => (n, pool.filter (fun t => t.name = n)))
      = ((firstOccurrences (pool.map (fun t => t.name))).filter
        (fun n => n = nm)).map
        (fun n => (n, pool.filter (fun t => t.name = n))) := rfl
    _ = [(nm, pool.filter (fun t => t.name = nm))] := by rw [hkeys]; rfl

/-- The conflict constructor used by `resolveConflicts` for one group. -/
def conflictOfGroup {ε : Type} (ty : ConflictType)
    (p : String × List (Entry ε)) : Option SchemaConflict :=
  if p.2.length = 1 then none
  else some { type := ty, name := p.1
              servers := p.2.map (fun t => nsOrUnknown t.ns)
              resolution := .byNamespace }

/-- `resolveConflicts` in terms of `conflictOfGroup`. -/
theorem resolveConflicts_conflicts_eq {ε : Type} (ty : ConflictType)
    (pool : List (Entry ε)) :
    (resolveConflicts ty pool).2 =
      (groupByName pool).filterMap (conflictOfGroup ty) := rfl

/-- Filtering the produced conflicts by name commutes with filtering the
groups by key. -/
theorem conflicts_filter_comm {ε : Type} (ty : ConflictType) (nm : String)
    (l : List (String × List (Entry ε))) :
    (l.filterMap (conflictOfGroup ty)).filter (fun c => c.name = nm) =
      (l.filter (fun p => p.1 = nm)).filterMap (conflictOfGroup ty) := by
  induction l with
  | nil => rfl
  | cons p l ih =>
    by_cases hlen : p.2.length = 1 <;> by_cases hnm : p.1 = nm <;>
      simp [List.filterMap_cons, List.filter_cons, conflictOfGroup, hlen,
        hnm, ih]

/-- Every conflict produced by `resolveConflicts ty` carries type `ty`. -/
theorem resolveConflicts_type {ε : Type} (ty : ConflictType)
    (pool : List (Entry ε)) (c : SchemaConflict)
    (hc : c ∈ (resolveConflicts ty pool).2) : c.type = ty := by
  rw [resolveConflicts_conflicts_eq] at hc
  rcases List.mem_filterMap.mp hc with ⟨p, _, hp⟩
  unfold conflictOfGroup at hp
  split_ifs at hp
  cases hp
  rfl

/-- The resolution behaviour of `resolveConflicts`, per logical name:
a name with exactly one entry passes through unchanged with no conflict;
a name with two or more entries has every entry renamed and exactly one
conflict record listing all contributing namespaces. -/
theorem resolveConflicts_spec {ε : Type} (ty : ConflictType)
    (pool : List (Entry ε)) (nm : String) :
    (∀ t, pool.filter (fun x => x.name = nm) = [t] →
      t ∈ (resolveConflicts ty pool).1 ∧
      (resolveConflicts ty pool).2.filter (fun c => c.name = nm) = []) ∧
    (2 ≤ (pool.filter (fun x => x.name = nm)).length →
      (∀ t ∈ pool, t.name = nm →
        renameEntry t ∈ (resolveConflicts ty pool).1) ∧
      (resolveConflicts ty pool).2.filter (fun c => c.name = nm) =
        [{ type := ty, name := nm
           servers := (pool.filter (fun x => x.name = nm)).map
             (fun t => nsOrUnknown t.ns)
           resolution := .byNamespace }]) := by
  constructor
  · intro t hsing
    have htf : t ∈ pool.filter (fun x => x.name = nm) := by
      rw [hsing]; exact List.mem_singleton.mpr rfl
    have htp : t ∈ pool ∧ t.name = nm := by
      have := List.mem_filter.mp htf
      exact ⟨this.1, by simpa using this.2⟩
    have hnm : nm ∈ pool.map (fun x => x.name) :=
      List.mem_map.mpr ⟨t, htp.1, htp.2⟩
    have hg := groupByName_filter_of_mem pool nm hnm
    have hmemg : (nm, pool.filter (fun x => x.name = nm)) ∈
        groupByName pool := by
      have : (nm, pool.filter (fun x => x.name = nm)) ∈
          (groupByName pool).filter (fun p => p.1 = nm) := by
        rw [hg]; exact List.mem_singleton.mpr rfl
      exact List.mem_of_mem_filter this
    constructor
    · show t ∈ ((groupByName pool).map (fun p =>
        if p.2.length = 1 then p.2 else p.2.map renameEntry)).flatten
      rw [List.mem_flatten]
      refine ⟨pool.filter (fun x => x.name = nm), ?_, htf⟩
      have := List.mem_map_of_mem (fun p : String × List (Entry ε) =>
        if p.2.length = 1 then p.2 else p.2.map renameEntry) hmemg
      simpa [hsing] using this
    · rw [resolveConflicts_conflicts_eq, conflicts_filter_comm, hg]
      simp [conflictOfGroup, hsing]
  · intro hlen
    have hne : pool.filter (fun x => x.name = nm) ≠ [] := by
      intro hnil
      rw [hnil] at hlen
      simp at hlen
    obtain ⟨t0, ht0⟩ := List.exists_mem_of_ne_nil _ hne
    have ht0p := List.mem_filter.mp ht0
    have hnm : nm ∈ pool.map (fun x => x.name) :=
      List.mem_map.mpr ⟨t0, ht0p.1, by simpa using ht0p.2⟩
    have hg := groupByName_filter_of_mem pool nm hnm
    have hmemg : (nm, pool.filter (fun x => x.name = nm)) ∈
        groupByName pool := by
      have : (nm, pool.filter (fun x => x.name = nm)) ∈
          (groupByName pool).filter (fun p => p.1 = nm) := by
        rw [hg]; exact List.mem_singleton.mpr rfl
      exact List.mem_of_mem_filter this
    have hlen1 : ¬ (pool.filter (fun x => x.name = nm)).length = 1 := by
      omega
    constructor
    · intro t htp htnm
      show renameEntry t ∈ ((groupByName pool).map (fun p =>
        if p.2.length = 1 then p.2 else p.2.map renameEntry)).flatten
      rw [List.mem_flatten]
      refine ⟨(pool.filter (fun x => x.name = nm)).map renameEntry, ?_, ?_⟩
      · have := List.mem_map_of_mem (fun p : String × List (Entry ε) =>
          if p.2.length = 1 then p.2 else p.2.map renameEntry) hmemg
        simpa [hlen1] using this
      · exact List.mem_map_of_mem renameEntry
          (List.mem_filter.mpr ⟨htp, by simpa using htnm⟩)
    · rw [resolveConflicts_conflicts_eq, conflicts_filter_comm, hg]
      simp [conflictOfGroup, hlen1]

/-- Restricting the merged conflict list to tool conflicts for one name
gives exactly the tool resolver's conflicts for that name. -/
theorem merged_conflicts_filter_tool (schemas : List MCPSchema)
    (nm : String) :
    (mergeSchemas schemas).conflicts.filter
      (fun c => c.type = ConflictType.tool ∧ c.name = nm) =
    (resolveConflicts .tool
      ((schemas.map (fun s => s.tools.getD [])).flatten)).2.filter
      (fun c => c.name = nm) := by
  show (((resolveConflicts .tool
      ((schemas.map (fun s => s.tools.getD [])).flatten)).2 ++
    (resolveConflicts .resource
      ((schemas.map (fun s => s.resources.getD [])).flatten)).2 ++
    (resolveConflicts .prompt
      ((schemas.map (fun s => s.prompts.getD [])).flatten)).2).filter _) = _
  rw [List.filter_append, List.filter_append]
  have ht : (resolveConflicts .tool
      ((schemas.map (fun s => s.tools.getD [])).flatten)).2.filter
        (fun c => c.type = ConflictType.tool ∧ c.name = nm) =
      (resolveConflicts .tool
        ((schemas.map (fun s => s.tools.getD [])).flatten)).2.filter
        (fun c => c.name = nm) := by
    apply List.filter_congr
    intro c hc
    simp [resolveConflicts_type _ _ c hc]
  have hr : (resolveConflicts .resource
      ((schemas.map (fun s => s.resources.getD [])).flatten)).2.filter
        (fun c => c.type = ConflictType.tool ∧ c.name = nm) = [] := by
    rw [List.filter_eq_nil_iff]
    intro c hc
    simp [resolveConflicts_type _ _ c hc]
  have hp : (resolveConflicts .prompt
      ((schemas.map (fun s => s.prompts.getD [])).flatten)).2.filter
        (fun c => c.type = ConflictType.tool ∧ c.name = nm) = [] := by
    rw [List.filter_eq_nil_iff]
    intro c hc
    simp [resolveConflicts_type _ _ c hc]
  rw [ht, hr, hp, List.append_nil, List.append_nil]

/-- As `merged_conflicts_filter_tool`, for resource conflicts. -/
theorem merged_conflicts_filter_resource (schemas : List MCPSchema)
    (nm : String) :
    (mergeSchemas schemas).conflicts.filter
      (fun c => c.type = ConflictType.resource ∧ c.name = nm) =
    (resolveConflicts .resource
      ((schemas.map (fun s => s.resources.getD [])).flatten)).2.filter
      (fun c => c.name = nm) := by
  show (((resolveConflicts .tool
      ((schemas.map (fun s => s.tools.getD [])).flatten)).2 ++
    (resolveConflicts .resource
      ((schemas.map (fun s => s.resources.getD [])).flatten)).2 ++
    (resolveConflicts .prompt
      ((schemas.map (fun s => s.prompts.getD [])).flatten)).2).filter _) = _
  rw [List.filter_append, List.filter_append]
  have ht : (resolveConflicts .tool
      ((schemas.map (fun s => s.tools.getD [])).flatten)).2.filter
        (fun c => c.type = ConflictType.resource ∧ c.name = nm) = [] := by
    rw [List.filter_eq_nil_iff]
    intro c hc
    simp [resolveConflicts_type _ _ c hc]
  have hr : (resolveConflicts .resource
      ((schemas.map (fun s => s.resources.getD [])).flatten)).2.filter
        (fun c => c.type = ConflictType.resource ∧ c.name = nm) =
      (resolveConflicts .resource
        ((schemas.map (fun s => s.resources.getD [])).flatten)).2.filter
        (fun c => c.name = nm) := by
    apply List.filter_congr
    intro c hc
    simp [resolveConflicts_type _ _ c hc]
  have hp : (resolveConflicts .prompt
      ((schemas.map (fun s => s.prompts.getD [])).flatten)).2.filter
        (fun c => c.type = ConflictType.resource ∧ c.name = nm) = [] := by
    rw [List.filter_eq_nil_iff]
    intro c hc
    simp [resolveConflicts_type _ _ c hc]
  rw [ht, hr, hp, List.nil_append, List.append_nil]

/-- As `merged_conflicts_filter_tool`, for prompt conflicts. -/
theorem merged_conflicts_filter_prompt (schemas : List MCPSchema)
    (nm : String) :
    (mergeSchemas schemas).conflicts.filter
      (fun c => c.type = ConflictType.prompt ∧ c.name = nm) =
    (resolveConflicts .prompt
      ((schemas.map (fun s => s.prompts.getD [])).flatten)).2.filter
      (fun c => c.name = nm) := by
  show (((resolveConflicts .tool
      ((schemas.map (fun s => s.tools.getD [])).flatten)).2 ++
    (resolveConflicts .resource
      ((schemas.map (fun s => s.resources.getD [])).flatten)).2 ++
    (resolveConflicts .prompt
      ((schemas.map (fun s => s.prompts.getD [])).flatten)).2).filter _) = _
  rw [List.filter_append, List.filter_append]
  have ht : (resolveConflicts .tool
      ((schemas.map (fun s => s.tools.getD [])).flatten)).2.filter
        (fun c => c.type = ConflictType.prompt ∧ c.name = nm) = [] := by
    rw [List.filter_eq_nil_iff]
    intro c hc
    simp [resolveConflicts_type _ _ c hc]
  have hr : (resolveConflicts .resource
      ((schemas.map (fun s => s.resources.getD [])).flatten)).2.filter
        (fun c => c.type = ConflictType.prompt ∧ c.name = nm) = [] := by
    rw [List.filter_eq_nil_iff]
    intro c hc
    simp [resolveConflicts_type _ _ c hc]
  have hp : (resolveConflicts .prompt
      ((schemas.map (fun s => s.prompts.getD [])).flatten)).2.filter
        (fun c => c.type = ConflictType.prompt ∧ c.name = nm) =
      (resolveConflicts .prompt
        ((schemas.map (fun s => s.prompts.getD [])).flatten)).2.filter
        (fun c => c.name = nm) := by
    apply List.filter_congr
    intro c hc
    simp [resolveConflicts_type _ _ c hc]
  rw [ht, hr, hp, List.nil_append, List.nil_append]

/-- C2: in the federated merge, a logical name contributed by exactly one
entry passes through unchanged with no conflict record for it, while a
name contributed by two or more entries has every contributing entry
renamed to `namespace:name` (the first included) and exactly one conflict
record listing all contributing namespaces with resolution `namespace`;
this holds independently for tools, resources, and prompts, the pool of
each kind being the concatenation of that kind's entries over all merged
schemas. -/
theorem federation_conflict_resolution (schemas : List MCPSchema)
    (nm : String) :
    (∀ t, ((schemas.map (fun s => s.tools.getD [])).flatten).filter
        (fun x => x.name = nm) = [t] →
      t ∈ (mergeSchemas schemas).tools ∧
      (mergeSchemas schemas).conflicts.filter
        (fun c => c.type = ConflictType.tool ∧ c.name = nm) = []) ∧
    (2 ≤ (((schemas.map (fun s => s.tools.getD [])).flatten).filter
        (fun x => x.name = nm)).length →
      (∀ t ∈ (schemas.map (fun s => s.tools.getD [])).flatten,
        t.name = nm → renameEntry t ∈ (mergeSchemas schemas).tools) ∧
      (mergeSchemas schemas).conflicts.filter
        (fun c => c.type = ConflictType.tool ∧ c.name = nm) =
        [{ type := .tool, name := nm
           servers := (((schemas.map (fun s => s.tools.getD [])).flatten).filter
             (fun x => x.name = nm)).map (fun t => nsOrUnknown t.ns)
           resolution := .byNamespace }]) ∧
    (∀ t, ((schemas.map (fun s => s.resources.getD [])).flatten).filter
        (fun x => x.name = nm) = [t] →
      t ∈ (mergeSchemas schemas).resources ∧
      (mergeSchemas schemas).conflicts.filter
        (fun c => c.type = ConflictType.resource ∧ c.name = nm) = []) ∧
    (2 ≤ (((schemas.map (fun s => s.resources.getD [])).flatten).filter
        (fun x => x.name = nm)).length →
      (∀ t ∈ (schemas.map (fun s => s.resources.getD [])).flatten,
        t.name = nm → renameEntry t ∈ (mergeSchemas schemas).resources) ∧
      (mergeSchemas schemas).conflicts.filter
        (fun c => c.type = ConflictType.resource ∧ c.name = nm) =
        [{ type := .resource, name := nm
           servers :=
             (((schemas.map (fun s => s.resources.getD [])).flatten).filter
               (fun x => x.name = nm)).map (fun t => nsOrUnknown t.ns)
           resolution := .byNamespace }]) ∧
    (∀ t, ((schemas.map (fun s => s.prompts.getD [])).flatten).filter
        (fun x => x.name = nm) = [t] →
      t ∈ (mergeSchemas schemas).prompts ∧
      (mergeSchemas schemas).conflicts.filter
        (fun c => c.type = ConflictType.prompt ∧ c.name = nm) = []) ∧
    (2 ≤ (((schemas.map (fun s => s.prompts.getD [])).flatten).filter
        (fun x => x.name = nm)).length →
      (∀ t ∈ (schemas.map (fun s => s.prompts.getD [])).flatten,
        t.name = nm → renameEntry t ∈ (mergeSchemas schemas).prompts) ∧
      (mergeSchemas schemas).conflicts.filter
        (fun c => c.type = ConflictType.prompt ∧ c.name = nm) =
        [{ type := .prompt, name := nm
           servers :=
             (((schemas.map (fun s => s.prompts.getD [])).flatten).filter
               (fun x => x.name = nm)).map (fun t => nsOrUnknown t.ns)
           resolution := .byNamespace }]) := by
  have hT := resolveConflicts_spec ConflictType.tool
    ((schemas.map (fun s => s.tools.getD [])).flatten) nm
  have hR := resolveConflicts_spec ConflictType.resource
    ((schemas.map (fun s => s.resources.getD [])).flatten) nm
  have hP := resolveConflicts_spec ConflictType.prompt
    ((schemas.map (fun s => s.prompts.getD [])).flatten) nm
  refine ⟨fun t ht => ?_, fun hlen => ?_, fun t ht => ?_, fun hlen => ?_,
    fun t ht => ?_, fun hlen => ?_⟩
  · exact ⟨(hT.1 t ht).1,
      (merged_conflicts_filter_tool schemas nm).trans (hT.1 t ht).2⟩
  · exact ⟨fun t htp htn => (hT.2 hlen).1 t htp htn,
      (merged_conflicts_filter_tool schemas nm).trans (hT.2 hlen).2⟩
  · exact ⟨(hR.1 t ht).1,
      (merged_conflicts_filter_resource schemas nm).trans (hR.1 t ht).2⟩
  · exact ⟨fun t htp htn => (hR.2 hlen).1 t htp htn,
      (merged_conflicts_filter_resource schemas nm).trans (hR.2 hlen).2⟩
  · exact ⟨(hP.1 t ht).1,
      (merged_conflicts_filter_prompt schemas nm).trans (hP.1 t ht).2⟩
  · exact ⟨fun t htp htn => (hP.2 hlen).1 t htp htn,
      (merged_conflicts_filter_prompt schemas nm).trans (hP.2 hlen).2⟩

/-- Two concrete schemas: "alpha" contributes tools "search" and "solo",
"beta" contributes tool "search". -/
def fedWitnessSchemas : List MCPSchema :=
  [{ serverId := "alpha", ns := some "alpha"
     tools := some [{ name := "search", ns := some "alpha", extra := ⟨""⟩ },
                    { name := "solo", ns := some "alpha", extra := ⟨""⟩ }]
     resources := none, prompts := none, capabilities := [] },
   { serverId := "beta", ns := some "beta"
     tools := some [{ name := "search", ns := some "beta", extra := ⟨""⟩ }]
     resources := none, prompts := none, capabilities := [] }]

/-- Concrete instance for `federation_conflict_resolution`: "solo" passes
through unchanged with no conflict; "search" is renamed for both
contributors and yields one conflict naming both namespaces. -/
theorem federation_conflict_resolution_witness :
    ({ name := "solo", ns := some "alpha", extra := ⟨""⟩ } :
      Entry ToolExtra) ∈ (mergeSchemas fedWitnessSchemas).tools ∧
    (mergeSchemas fedWitnessSchemas).conflicts.filter
      (fun c => c.type = ConflictType.tool ∧ c.name = "solo") = [] ∧
    renameEntry ({ name := "search", ns := some "alpha", extra := ⟨""⟩ } :
      Entry ToolExtra) ∈ (mergeSchemas fedWitnessSchemas).tools ∧
    renameEntry ({ name := "search", ns := some "beta", extra := ⟨""⟩ } :
      Entry ToolExtra) ∈ (mergeSchemas fedWitnessSchemas).tools ∧
    (mergeSchemas fedWitnessSchemas).conflicts.filter
      (fun c => c.type = ConflictType.tool ∧ c.name = "search") =
      [{ type := .tool, name := "search", servers := ["alpha", "beta"]
         resolution := .byNamespace }] := by
  have hA := federation_conflict_resolution fedWitnessSchemas "solo"
  have hB := federation_conflict_resolution fedWitnessSchemas "search"
  have h1 := hA.1 { name := "solo", ns := some "alpha", extra := ⟨""⟩ }
    (by decide)
  have h2 := hB.2.1 (by decide)
  refine ⟨h1.1, h1.2, ?_, ?_, ?_⟩
  · exact h2.1 { name := "search", ns := some "alpha", extra := ⟨""⟩ }
      (by decide) rfl
  · exact h2.1 { name := "search", ns := some "beta", extra := ⟨""⟩ }
      (by decide) rfl
  · exact h2.2.trans (by decide)

/-- `runCalls` distributes over concatenation of call sequences. -/
theorem runCalls_append (a b : List Int) (st : Option (List Int)) :
    runCalls (a ++ b) st =
      ((runCalls a st).1 ++ (runCalls b (runCalls a st).2).1,
        (runCalls b (runCalls a st).2).2) := by
  induction a generalizing st with
  | nil => simp [runCalls]
  | cons t rest ih => simp [runCalls, ih]

/-- One admitted call: with fewer than 100 retained timestamps, all inside
the window, the call is allowed, `now` is appended and persisted, and
`remaining = 100 - newCount`. -/
theorem checkRateLimit_admit (t : Int) (h : List Int)
    (hlen : h.length < 100) (hw : ∀ x ∈ h, t - 60000 < x) :
    checkRateLimit t true (.ok (some h)) true =
      { result := { allowed := true, limit := 100
                    remaining := (100 : Int) - (h.length + 1)
                    reset := t + RATE_LIMIT_WINDOW }
        written := some (h ++ [t]), storeErrored := false } := by
  have hfilt : h.filter (fun x => t - RATE_LIMIT_WINDOW < x) = h :=
    List.filter_eq_self.mpr (fun x hx => by
      simp only [decide_eq_true_eq, RATE_LIMIT_WINDOW]
      have := hw x hx
      omega)
  simp only [checkRateLimit, Option.getD_some, hfilt]
  split_ifs with h1 h2 <;>
    simp_all [RATE_LIMIT_MAX_REQUESTS, List.length_append]
  omega

/-- One rejected call: with at least 100 retained in-window timestamps,
the call is rejected with `remaining = 0` and
`reset = first retained + window`, and nothing is written. -/
theorem checkRateLimit_reject (t : Int) (h : List Int)
    (hlen : 100 ≤ h.length) (hw : ∀ x ∈ h, t - 60000 < x) :
    checkRateLimit t true (.ok (some h)) true =
      { result := { allowed := false, limit := 100, remaining := 0
                    reset := h.headD 0 + RATE_LIMIT_WINDOW }
        written := none, storeErrored := false } := by
  have hfilt : h.filter (fun x => t - RATE_LIMIT_WINDOW < x) = h :=
    List.filter_eq_self.mpr (fun x hx => by
      simp only [decide_eq_true_eq, RATE_LIMIT_WINDOW]
      have := hw x hx
      omega)
  simp only [checkRateLimit, Option.getD_some, hfilt]
  split_ifs with h1 h2 <;>
    simp_all [RATE_LIMIT_MAX_REQUESTS]

/-- While the cap is not reached and every call lies inside the window
that starts at `t0`, every call is admitted with
`remaining = 100 - newCount` and the persisted list grows by exactly the
call times, in order. -/
theorem runCalls_admit_phase (ts : List Int) :
    ∀ (hist : List Int) (t0 : Int),
    hist.length + ts.length ≤ 100 →
    (∀ x ∈ hist, t0 ≤ x) →
    (∀ t ∈ ts, t0 ≤ t ∧ t < t0 + 60000) →
    (runCalls ts (some hist)).1.map (fun r => (r.allowed, r.remaining)) =
      (List.range ts.length).map
        (fun i : Nat =>
          (true, (100 : Int) - ((hist.length : Int) + (i : Int) + 1))) ∧
    (runCalls ts (some hist)).2 = some (hist ++ ts) := by
  induction ts with
  | nil =>
    intro hist t0 _ _ _
    simp [runCalls]
  | cons t rest ih =>
    intro hist t0 hcap hh hts
    have hstep := checkRateLimit_admit t hist (by
        simp only [List.length_cons] at hcap
        omega)
      (fun x hx => by
        have h1 := hh x hx
        have h2 := (hts t (List.mem_cons_self t rest)).2
        omega)
    have ihr := ih (hist ++ [t]) t0
      (by simp only [List.length_append, List.length_cons,
            List.length_nil] at hcap ⊢
          omega)
      (fun x hx => by
        rcases List.mem_append.mp hx with hxh | hxt
        · exact hh x hxh
        · rw [List.mem_singleton] at hxt
          subst hxt
          exact (hts x (List.mem_cons_self x rest)).1)
      (fun u hu => hts u (List.mem_cons_of_mem t hu))
    simp only [runCalls, hstep]
    refine ⟨?_, ?_⟩
    · simp only [List.map_cons]
      rw [List.length_cons, List.range_succ_eq_map, List.map_cons,
        List.map_map, ihr.1]
      refine congrArg₂ _ (by norm_num) ?_
      refine List.map_congr_left (fun i _ => ?_)
      simp only [Function.comp_apply, List.length_append,
        List.length_cons, List.length_nil]
      refine congrArg _ ?_
      push_cast
      ring
    · rw [ihr.2, List.append_assoc]
      rfl

/-- C4: for one client key against a consistent backing store, 101 check
calls all lying inside one 60 s window starting at the first call time
`t0` are handled as: the first 100 admitted with
`remaining = 100 - newCount`, the 101st rejected with `remaining = 0` and
`reset = t0 + 60000` (the earliest retained timestamp plus the window);
and since entries older than the window are filtered out before the cap
comparison, a call whose retained entries have all aged out of the window
is admitted again. -/
theorem ratelimit_sliding_window (t0 tl : Int) (mid : List Int)
    (hmid : mid.length = 99)
    (hw : ∀ t ∈ t0 :: (mid ++ [tl]), t0 ≤ t ∧ t < t0 + 60000) :
    (runCalls (t0 :: (mid ++ [tl])) none).1.map
        (fun r => (r.allowed, r.remaining)) =
      ((List.range 100).map
        (fun i : Nat => (true, (100 : Int) - ((i : Int) + 1)))) ++
        [(false, 0)] ∧
    (runCalls (t0 :: (mid ++ [tl])) none).1.getLast? =
      some { allowed := false, limit := 100, remaining := 0
             reset := t0 + 60000 } ∧
    (∀ (h : List Int) (t : Int), (∀ x ∈ h, x ≤ t - 60000) →
      (checkRateLimit t true (.ok (some h)) true).result.allowed = true ∧
      (checkRateLimit t true (.ok (some h)) true).result.remaining
        = 99) := by
  have hstep0 : checkRateLimit t0 true (.ok none) true =
      { result := { allowed := true, limit := 100, remaining := 99
                    reset := t0 + RATE_LIMIT_WINDOW }
        written := some [t0], storeErrored := false } := by
    norm_num [checkRateLimit, RATE_LIMIT_MAX_REQUESTS]
  have hphase1 := runCalls_admit_phase mid [t0] t0
    (by simp [hmid])
    (by intro x hx; rw [List.mem_singleton] at hx; exact le_of_eq hx.symm)
    (by intro u hu
        exact hw u (List.mem_cons_of_mem t0 (List.mem_append_left _ hu)))
  have hph1map := hphase1.1
  simp only [hmid, List.length_cons, List.length_nil, Nat.cast_ofNat,
    Nat.cast_one] at hph1map
  have hph1st : (runCalls mid (some [t0])).2 = some (t0 :: mid) := by
    have := hphase1.2
    simpa using this
  have hreject := checkRateLimit_reject tl (t0 :: mid)
    (by simp [hmid])
    (by intro x hx
        have hx0 : t0 ≤ x := by
          rcases List.mem_cons.mp hx with hx1 | hx2
          · exact le_of_eq hx1.symm
          · exact (hw x (List.mem_cons_of_mem t0
              (List.mem_append_left _ hx2))).1
        have htl := (hw tl (List.mem_cons_of_mem t0
          (List.mem_append_right _ (List.mem_singleton.mpr rfl)))).2
        omega)
  have hreject2 : checkRateLimit tl true (.ok (some (t0 :: mid))) true =
      { result := { allowed := false, limit := 100, remaining := 0
                    reset := t0 + RATE_LIMIT_WINDOW }
        written := none, storeErrored := false } := by
    rw [hreject]
    rfl
  have e1 : (runCalls (t0 :: (mid ++ [tl])) none).1 =
      { allowed := true, limit := 100, remaining := 99
        reset := t0 + RATE_LIMIT_WINDOW } ::
      (runCalls (mid ++ [tl]) (some [t0])).1 := by
    simp [runCalls, hstep0]
  have e2 : (runCalls (mid ++ [tl]) (some [t0])).1 =
      (runCalls mid (some [t0])).1 ++
        [{ allowed := false, limit := 100, remaining := 0
           reset := t0 + RATE_LIMIT_WINDOW }] := by
    rw [runCalls_append, hph1st]
    simp [runCalls, hreject2]
  have hresults : (runCalls (t0 :: (mid ++ [tl])) none).1 =
      ({ allowed := true, limit := 100, remaining := 99
         reset := t0 + RATE_LIMIT_WINDOW } ::
        (runCalls mid (some [t0])).1) ++
        [{ allowed := false, limit := 100, remaining := 0
           reset := t0 + RATE_LIMIT_WINDOW }] := by
    rw [e1, e2]
    rfl
  refine ⟨?_, ?_, ?_⟩
  · rw [hresults, List.map_append, List.map_cons, hph1map]
    rw [show List.range 100 = 0 :: (List.range 99).map Nat.succ from
      List.range_succ_eq_map 99]
    simp only [List.map_cons, List.map_map]
    refine congrArg₂ _ (congrArg₂ _ ?_ ?_) ?_
    · norm_num [RATE_LIMIT_WINDOW]
    · refine List.map_congr_left (fun i _ => ?_)
      simp only [Function.comp_apply]
      refine congrArg _ ?_
      push_cast
      ring
    · norm_num [RATE_LIMIT_WINDOW]
  · rw [hresults, List.getLast?_concat]
    norm_num [RATE_LIMIT_WINDOW]
  · intro h t hx
    have hfilt : h.filter (fun x => t - RATE_LIMIT_WINDOW < x) = [] := by
      rw [List.filter_eq_nil_iff]
      intro x hxm
      simp only [decide_eq_true_eq, RATE_LIMIT_WINDOW]
      have := hx x hxm
      omega
    constructor <;>
      norm_num [checkRateLimit, RATE_LIMIT_MAX_REQUESTS, hfilt]

/-- Concrete instance for `ratelimit_sliding_window`: 101 calls all at
time 0 — the 101st is rejected with reset `0 + 60000`, and a later call
whose stored entries have aged out is admitted with remaining 99. -/
theorem ratelimit_sliding_window_witness :
    (runCalls ((0 : Int) :: (List.replicate 99 (0 : Int) ++ [(0 : Int)]))
      none).1.getLast? =
      some { allowed := false, limit := 100, remaining := 0
             reset := (0 : Int) + 60000 } ∧
    (checkRateLimit 70000 true (.ok (some [0])) true).result.allowed
      = true := by
  have h := ratelimit_sliding_window 0 0 (List.replicate 99 0)
    (List.length_replicate 99 0)
    (by intro t ht
        simp only [List.mem_cons, List.mem_append, List.mem_replicate,
          List.mem_singleton] at ht
        have : t = 0 := by tauto
        subst this
        norm_num)
  refine ⟨h.2.1, (h.2.2 [0] 70000 ?_).1⟩
  intro x hx
  rw [List.mem_singleton] at hx
  subst hx
  norm_num

end MCPHub
